import Mathlib

/-!
Verification of the Discord-to-KOOK forwarding bot against its
natural-language specification.  The Python sources are shallowly embedded:
dictionaries become association lists, awaited network calls become oracle
parameters, and file writes become an explicit write counter.
-/

namespace DiscordKook

/-! ### Association lists (embedding of Python `dict`)

Python dictionaries preserve insertion order; assignment to an existing key
replaces the value in place, assignment to a fresh key appends, and `del`
removes the unique binding.  The functions below mirror this on ordered
association lists. -/

/-- Lookup, `d.get(k)` / `d[k]`. -/
def alGet {β : Type} : List (String × β) → String → Option β
  | [], _ => none
  | (k, v) :: rest, key => if k = key then some v else alGet rest key

/-- Assignment, `d[k] = v`: replace in place, or append a fresh key. -/
def alSet {β : Type} : List (String × β) → String → β → List (String × β)
  | [], key, v => [(key, v)]
  | (k, w) :: rest, key, v =>
    if k = key then (k, v) :: rest else (k, w) :: alSet rest key v

/-- Deletion, `del d[k]`: drops the first binding of the key. -/
def alErase {β : Type} : List (String × β) → String → List (String × β)
  | [], _ => []
  | (k, w) :: rest, key => if k = key then rest else (k, w) :: alErase rest key

/-! ### String primitives

The Python string operations used by the sources (`in`, `strip`,
`startswith`, `split`) are embedded as character-list recursions, so that
every definition evaluates inside the kernel. -/

/-- Whether `needle` occurs at the start of `hay` (character lists);
embedding of Python `str.startswith` at the character level. -/
def leadsWith : List Char → List Char → Bool
  | [], _ => true
  | _ :: _, [] => false
  | a :: as, b :: bs => a = b && leadsWith as bs

/-- Whether `needle` occurs anywhere in `hay` (character lists). -/
def charsSub (needle : List Char) : List Char → Bool
  | [] => needle.isEmpty
  | b :: bs => leadsWith needle (b :: bs) || charsSub needle bs

/-- Embedding of the Python substring test `needle in hay` on strings. -/
def strIn (needle hay : String) : Bool :=
  charsSub needle.data hay.data

/-- Embedding of the Python membership test `c in s` for a single
character. -/
def strHasChar (c : Char) (s : String) : Bool :=
  s.data.any (fun a => a = c)

/-- Embedding of Python `str.startswith` on strings. -/
def strStarts (pre s : String) : Bool :=
  leadsWith pre.data s.data

/-- Drops leading whitespace from a character list. -/
def dropLeadWs : List Char → List Char
  | [] => []
  | c :: cs => if c.isWhitespace then dropLeadWs cs else c :: cs

/-- Embedding of Python `str.strip()`: removes whitespace from both ends. -/
def strTrim (s : String) : String :=
  String.mk (((dropLeadWs s.data).reverse |> dropLeadWs).reverse)

/-- Embedding of Python `text.split(sep)` for a one-character separator, at
the character level: the pieces between separator occurrences, in order
(`"".split` gives one empty piece). -/
def splitChar (sep : Char) : List Char → List (List Char)
  | [] => [[]]
  | c :: cs =>
    if c = sep then [] :: splitChar sep cs
    else
      match splitChar sep cs with
      | l :: ls => (c :: l) :: ls
      | [] => [[c]]

/-- Embedding of Python `s.split(sep)` on strings, one-character
separator. -/
def strSplitChar (sep : Char) (s : String) : List String :=
  (splitChar sep s.data).map (fun cs => String.mk cs)

/-! ### forward_config.py -/

/-- Embedding of `str.split(':', 1)`: the part before the first colon and
the remainder (inner colons rejoined with the separator). -/
def splitFirstColon (p : String) : String × String :=
  let parts := splitChar ':' p.data
  (String.mk (parts.headD []), String.mk (List.intercalate [':'] parts.tail))

/-- Embedding of `ForwardConfig._parse_forward_rules`.  The rule string is
split on commas; a pair without a colon is skipped; a pair with a colon is
trimmed, split on its first colon, both sides trimmed again, and assigned
into the rule dictionary (so a repeated source id keeps the last
destination). -/
def parseForwardRules (rulesStr : String) : List (String × String) :=
  if strTrim rulesStr = "" then []
  else
    (strSplitChar ',' rulesStr).foldl
      (fun rules pair =>
        if strHasChar ':' pair then
          alSet rules (strTrim (splitFirstColon (strTrim pair)).1)
            (strTrim (splitFirstColon (strTrim pair)).2)
        else rules)
      []

/-- Embedding of `ForwardConfig.get_kook_channel_id`:
`self.forward_rules.get(discord_channel_id)`. -/
def getKookChannelId (rules : List (String × String)) (discordChannelId : String) :
    Option String :=
  alGet rules discordChannelId

/-! ### translator.py

The concrete translation providers are network calls; they are abstracted
as a pure function `svc : String → String`.  The configuration flags read
from the environment become the record below. -/

/-- Configuration state of `Translator.__init__`: the TRANSLATION_ENABLED
flag, whether `_create_service` produced a service (provider supported and
configured), and the parsed TRANSLATION_WHITELIST. -/
structure TranslatorCfg where
  enabled : Bool
  hasService : Bool
  whitelist : List String
deriving DecidableEq

/-- Embedding of `Translator.is_enabled`:
`self.enabled and self.service is not None`. -/
def TranslatorCfg.isEnabled (cfg : TranslatorCfg) : Bool :=
  cfg.enabled && cfg.hasService

/-- Embedding of `Translator._should_skip_translation`: false for an empty
whitelist, otherwise true iff some whitelist item occurs in the text. -/
def shouldSkip (cfg : TranslatorCfg) (text : String) : Bool :=
  if cfg.whitelist.isEmpty then false
  else cfg.whitelist.any (fun w => strIn w text)

/-- Embedding of `Translator._contains_code_block`: `"```" in text`. -/
def containsCodeBlock (text : String) : Bool :=
  strIn "```" text

/-- Embedding of Python `text.split('\n')` on strings. -/
def splitNl (s : String) : List String :=
  strSplitChar '\n' s

/-- The fence test of `_split_text_and_code_blocks`:
`line.strip().startswith("```") or line.strip() == "```"`. -/
def isFence (line : String) : Bool :=
  strStarts "```" (strTrim line) || strTrim line == "```"

/-- The line loop of `Translator._split_text_and_code_blocks`: walks the
lines carrying the in-code flag and the current accumulated part; a fence
line flushes the current part (when nonempty), toggles the flag, and starts
the next part with the fence line itself.  Each emitted part is tagged with
the in-code flag that was current when its first line was added. -/
def splitAux : List String → Bool → String → List (Bool × String)
  | [], inCode, cur => if cur = "" then [] else [(inCode, cur)]
  | l :: ls, inCode, cur =>
    if isFence l then
      (if cur = "" then [] else [(inCode, cur)]) ++ splitAux ls (!inCode) (l ++ "\n")
    else
      splitAux ls inCode (cur ++ l ++ "\n")

/-- Embedding of `Translator._split_text_and_code_blocks`: parts are
`(isCode, content)` pairs; every line of the input is re-terminated with a
newline as it is accumulated. -/
def splitTextAndCodeBlocks (text : String) : List (Bool × String) :=
  splitAux (splitNl text) false ""

/-- Embedding of `Translator.translate_text`.  Returns the text unchanged
when translation is off or the text is blank or whitelisted; translates the
whole text when it has no code block; otherwise splits it and accumulates
the parts, translating only non-code, non-blank, non-whitelisted parts. -/
def translateText (cfg : TranslatorCfg) (svc : String → String) (text : String) : String :=
  if cfg.isEnabled = false || strTrim text = "" then text
  else if shouldSkip cfg text then text
  else if containsCodeBlock text = false then svc text
  else
    (splitTextAndCodeBlocks text).foldl
      (fun result part =>
        if part.1 == false && strTrim part.2 != "" then
          if shouldSkip cfg part.2 then result ++ part.2
          else result ++ svc part.2
        else result ++ part.2)
      ""

/-! ### message_forwarder.py

Network effects are recorded as event traces; the success or failure of
each external call is an oracle parameter. -/

/-- Observable events of `MessageForwarder._send_text_message`. -/
inductive SendEvent where
  | nativeTry
  | nativeSent
  | apiTry (attempt : Nat)
  | sleepOneSec
  | logFail
deriving DecidableEq

/-- The retry loop of `_send_text_message`: `for attempt in range(max_retries)`
with `api attempt` the outcome of the POST on that attempt; a failed attempt
other than the last is followed by `await asyncio.sleep(1)`; running out of
retries logs the final failure. -/
def retryFrom (api : Nat → Bool) : Nat → Nat → List SendEvent
  | _, 0 => [SendEvent.logFail]
  | attempt, remaining + 1 =>
    SendEvent.apiTry attempt ::
      (if api attempt then []
       else
         (if remaining > 0 then [SendEvent.sleepOneSec] else []) ++
           retryFrom api (attempt + 1) remaining)

/-- `max_retries = 3` in `_send_text_message`. -/
def maxRetries : Nat := 3

/-- Embedding of `MessageForwarder._send_text_message` as its event trace:
the native channel send is attempted first; if it raises (`nativeOk = false`)
the direct API call is retried up to `maxRetries` times.  The whole body is
wrapped in `try/except`, so the embedding is a total function: no input
raises to the caller. -/
def sendTextMessage (nativeOk : Bool) (api : Nat → Bool) : List SendEvent :=
  SendEvent.nativeTry ::
    (if nativeOk then [SendEvent.nativeSent] else retryFrom api 0 maxRetries)

/-- Observable events of `MessageForwarder._send_file_to_kook`. -/
inductive FileEvent where
  | nativeFileSend
  | textNotice (msg : String)
  | assetUpload
  | imageCard
  | videoCard
  | fileLinkMsg
deriving DecidableEq

/-- `unsupported_formats = ['.svg', '.webp', '.tiff', '.psd']`. -/
def unsupportedFormats : List String := [".svg", ".webp", ".tiff", ".psd"]

/-- The KOOK upload ceiling checked in `_send_file_to_kook`:
`20 * 1024 * 1024` bytes. -/
def kookSizeLimit : Nat := 20 * 1024 * 1024

/-- `MessageForwarder._is_image_file`, on the lower-cased extension. -/
def isImageExt (ext : String) : Bool :=
  ext ∈ [".jpg", ".jpeg", ".png", ".gif", ".bmp", ".webp"]

/-- `MessageForwarder._is_video_file`, on the lower-cased extension. -/
def isVideoExt (ext : String) : Bool :=
  ext ∈ [".mp4", ".avi", ".mov", ".wmv", ".flv", ".webm", ".mkv"]

/-- Embedding of `MessageForwarder._send_file_to_kook` as its event trace.
`ext` stands for `os.path.splitext(original_filename)[1].lower()` and `size`
for `os.path.getsize(file_path)`, both abstracted as inputs; `upload` is the
asset-create API outcome (the returned URL, when any).  The native
`channel.send(file=f)` is attempted first, before any check; only when it
raises does the code check the extension, then the size, and only then POST
to the asset API. -/
def sendFileToKook (msgPre : String) (nativeOk : Bool) (fname ext : String)
    (size : Nat) (upload : Option String) : List FileEvent :=
  FileEvent.nativeFileSend ::
    (if nativeOk then []
     else if ext ∈ unsupportedFormats then
       [FileEvent.textNotice (msgPre ++ " 不支持的文件格式: " ++ fname)]
     else if size > kookSizeLimit then
       [FileEvent.textNotice (msgPre ++ " 文件过大(>20MB): " ++ fname)]
     else
       FileEvent.assetUpload ::
         (match upload with
          | some _ =>
            if isImageExt ext then [FileEvent.imageCard]
            else if isVideoExt ext then [FileEvent.videoCard]
            else [FileEvent.fileLinkMsg]
          | none =>
            [FileEvent.textNotice (msgPre ++ " 文件上传失败: " ++ fname)]))

/-! ### steam_monitor.py

The Steam web API, the rapidfuzz matchers, and the scheduler are external;
they become oracle parameters.  The monitor store `monitor_list` maps a
`user_id_channel_id` key to a dictionary from appid strings to per-game
monitor records; persisting it to `monitor_list.json` is counted by a write
counter. -/

/-- The dictionary returned by `SteamMonitor.get_steam_price` (prices are
already divided by 100, so they are rationals). -/
structure PriceInfo where
  isFree : Bool
  currentPrice : ℚ
  originalPrice : ℚ
  discount : Int
  currency : String
deriving DecidableEq

/-- A per-game record of `monitor_list`, as built by `add_monitor`. -/
structure MonitorInfo where
  appid : Nat
  name : String
  lastPrice : ℚ
  lastDiscount : Int
  currency : String
  addedTime : ℚ
deriving DecidableEq

/-- The in-memory `monitor_list`. -/
abbrev MonitorStore := List (String × List (String × MonitorInfo))

/-- A record appended to `price_changes` by `run_monitor_prices` (the code
stores `user_id` and `channel_id` obtained from `key.split("_")`; the key
carries the same information). -/
structure PriceChange where
  key : String
  gameName : String
  appid : String
  oldPrice : ℚ
  newPrice : ℚ
  oldDiscount : Int
  newDiscount : Int
  currency : String
deriving DecidableEq

/-- Embedding of `SteamMonitor.get_appid_by_name`.  `dict` is
`app_dict_all` (name to appid) and `matched` the `process.extractOne`
outcome for the queried name, `(best name, score)`; rapidfuzz returns a key
of the dictionary, so the lookup of the matched name succeeds on real runs.
Accepts iff the dictionary is nonempty and the best score is at least 70. -/
def getAppidByName (dict : List (String × Nat)) (matched : Option (String × ℚ)) :
    Option (Nat × String) :=
  if dict.isEmpty then none
  else
    match matched with
    | some ms =>
      if ms.2 ≥ 70 then (alGet dict ms.1).map (fun i => (i, ms.1))
      else none
    | none => none

/-- The name-resolution step of `SteamMonitor.add_game` for a non-numeric
input: exact dictionary hit wins; otherwise the single `process.extract`
candidate `matched` is accepted only when its score is strictly greater
than 80.  Returns the resolved `(name, appid)`. -/
def addGameResolve (dict : List (String × Nat)) (gameName : String)
    (matched : Option (String × ℚ)) : Option (String × Nat) :=
  match alGet dict gameName with
  | some i => some (gameName, i)
  | none =>
    match matched with
    | some ms =>
      if ms.2 > 80 then (alGet dict ms.1).map (fun i => (ms.1, i))
      else none
    | none => none

/-- Embedding of `SteamMonitor.add_monitor`.  `matcher` is the
`extractOne` oracle used by `get_appid_by_name`, `price` the
`get_steam_price` oracle, `now` the event-loop time.  Returns
`((ok, message, info), new store, file writes)`. -/
def addMonitor (dict : List (String × Nat)) (matcher : String → Option (String × ℚ))
    (price : Nat → Option PriceInfo) (now : ℚ) (store : MonitorStore)
    (userId channelId gameName : String) :
    (Bool × String × Option MonitorInfo) × MonitorStore × Nat :=
  match getAppidByName dict (matcher gameName) with
  | none => ((false, "未找到匹配的游戏", none), store, 0)
  | some (appid, matchedName) =>
    match price appid with
    | none => ((false, "无法获取游戏价格信息", none), store, 0)
    | some p =>
      let info : MonitorInfo :=
        { appid := appid, name := matchedName, lastPrice := p.currentPrice,
          lastDiscount := p.discount, currency := p.currency, addedTime := now }
      let key := userId ++ "_" ++ channelId
      let games := (alGet store key).getD []
      if (alGet games (toString appid)).isSome then
        ((false, "游戏已在监控列表中", some info), store, 0)
      else
        ((true, "已添加游戏到监控列表", some info),
         alSet store key (games ++ [(toString appid, info)]), 1)

/-- Embedding of `SteamMonitor.list_monitors`: the values of the key entry,
or the empty list when the key is absent. -/
def listMonitors (store : MonitorStore) (userId channelId : String) :
    List MonitorInfo :=
  match alGet store (userId ++ "_" ++ channelId) with
  | none => []
  | some games => games.map (fun ag => ag.2)

/-- Embedding of `SteamMonitor.remove_monitor`.  `matcher` feeds
`get_appid_by_name`; when that misses, the code fuzzy-matches inside the
caller's own monitor list: it builds `user_games` (display name from
`app_dict_all_reverse`, keyed back to the appid string) and asks
`userMatcher` for the best display name with its score (threshold 70).
Python would raise on `int(appid)` for a non-numeric stored key; monitor
keys are always written as `str(appid)` of an integer appid.  Returns
`((ok, message), new store, file writes)`. -/
def removeMonitor (dict : List (String × Nat)) (matcher : String → Option (String × ℚ))
    (userMatcher : String → List String → Option (String × ℚ))
    (reverseDict : Nat → Option String) (store : MonitorStore)
    (userId channelId gameName : String) :
    (Bool × String) × MonitorStore × Nat :=
  let key := userId ++ "_" ++ channelId
  match alGet store key with
  | none => ((false, "您没有任何监控游戏"), store, 0)
  | some games =>
    if gameName = "" then
      ((true, "已移除所有监控游戏"), alErase store key, 1)
    else
      let resolved : Option String :=
        match getAppidByName dict (matcher gameName) with
        | some am => some (toString am.1)
        | none =>
          let userGames : List (String × String) :=
            games.foldl
              (fun acc ag =>
                let display :=
                  match ag.1.toNat? with
                  | some n => (reverseDict n).getD ag.1
                  | none => ag.1
                alSet acc display ag.1)
              []
          match userMatcher gameName (userGames.map (fun dg => dg.1)) with
          | some ms => if ms.2 ≥ 70 then alGet userGames ms.1 else none
          | none => none
      match resolved with
      | none => ((false, "未找到匹配的游戏"), store, 0)
      | some appidStr =>
        if (alGet games appidStr).isNone then
          ((false, "游戏不在监控列表中"), store, 0)
        else
          let remaining := alErase games appidStr
          let newStore :=
            if remaining.isEmpty then alErase store key else alSet store key remaining
          ((true, "已移除游戏监控"), newStore, 1)

/-- The favorable-change test of `run_monitor_prices`:
`current_price < last_price or current_discount > last_discount`. -/
def favorable (p : PriceInfo) (g : MonitorInfo) : Bool :=
  decide (p.currentPrice < g.lastPrice) || decide (p.discount > g.lastDiscount)

/-- The per-entry body of the `run_monitor_prices` loop: fetch the price
(`fetch` is the `get_steam_price` oracle, keyed by appid); on failure skip
the entry; on a favorable change update `last_price`/`last_discount` and
produce the change record. -/
def checkGame (fetch : String → Option PriceInfo) (key appid : String)
    (g : MonitorInfo) : MonitorInfo × Option PriceChange :=
  match fetch appid with
  | none => (g, none)
  | some p =>
    if favorable p g then
      ({ g with lastPrice := p.currentPrice, lastDiscount := p.discount },
       some { key := key, gameName := g.name, appid := appid,
              oldPrice := g.lastPrice, newPrice := p.currentPrice,
              oldDiscount := g.lastDiscount, newDiscount := p.discount,
              currency := p.currency })
    else (g, none)

/-- Embedding of `SteamMonitor.run_monitor_prices`: an empty store returns
at once; otherwise both loops run, accumulating the updated store and the
`price_changes` list; the store file is rewritten once at the end iff
`price_changes` is nonempty.  Returns `(new store, changes, file writes)`. -/
def runMonitorPrices (fetch : String → Option PriceInfo) (store : MonitorStore) :
    MonitorStore × List PriceChange × Nat :=
  if store.isEmpty then (store, [], 0)
  else
    let res :=
      store.foldl
        (fun acc kg =>
          let inner :=
            kg.2.foldl
              (fun gacc ag =>
                let r := checkGame fetch kg.1 ag.1 ag.2
                (gacc.1 ++ [(ag.1, r.1)],
                 match r.2 with
                 | none => gacc.2
                 | some c => gacc.2 ++ [c]))
              (([] : List (String × MonitorInfo)), acc.2)
          (acc.1 ++ [(kg.1, inner.1)], inner.2))
        (([] : MonitorStore), ([] : List PriceChange))
    (res.1, res.2, if res.2.isEmpty then 0 else 1)

/-- Declarative form of the store after one monitor pass: every entry is
stepped independently by `checkGame`. -/
def passStore (fetch : String → Option PriceInfo) (store : MonitorStore) :
    MonitorStore :=
  store.map (fun kg =>
    (kg.1, kg.2.map (fun ag => (ag.1, (checkGame fetch kg.1 ag.1 ag.2).1))))

/-- Declarative form of the change list of one monitor pass: one record per
favorable entry, in store order. -/
def passChanges (fetch : String → Option PriceInfo) (store : MonitorStore) :
    List PriceChange :=
  (store.map (fun kg =>
    kg.2.filterMap (fun ag => (checkGame fetch kg.1 ag.1 ag.2).2))).flatten

/-- The contribution of a single comma-separated pair of the rules string to
the lookup of source id `d`: the trimmed destination when the pair has a
colon and its trimmed source id equals `d`, and nothing otherwise. -/
def ruleEntry (d : String) (pair : String) : Option String :=
  if strHasChar ':' pair then
    if strTrim (splitFirstColon (strTrim pair)).1 = d then
      some (strTrim (splitFirstColon (strTrim pair)).2)
    else none
  else none

/-- The per-part output of the code-block branch of `translate_text`: a
non-code part with non-blank content is whitelisted-checked and possibly
translated; every other part passes through verbatim. -/
def translatePart (cfg : TranslatorCfg) (svc : String → String)
    (part : Bool × String) : String :=
  if part.1 == false && strTrim part.2 != "" then
    if shouldSkip cfg part.2 then part.2 else svc part.2
  else part.2

/-- Recognizer for the API-POST events of `_send_text_message`. -/
def isApiTry : SendEvent → Bool
  | SendEvent.apiTry _ => true
  | _ => false

/-! ## Theorems -/

theorem alGet_eq_none_iff {β : Type} (l : List (String × β)) (k : String) :
    alGet l k = none ↔ k ∉ l.map Prod.fst := by
  induction l with
  | nil => simp [alGet]
  | cons p rest ih =>
    by_cases h : p.1 = k
    · subst h
      simp [alGet]
    · simp [alGet, h, ih, Ne.symm h]

theorem alGet_isSome_iff {β : Type} (l : List (String × β)) (k : String) :
    (alGet l k).isSome ↔ k ∈ l.map Prod.fst := by
  rw [Option.isSome_iff_ne_none, Ne, alGet_eq_none_iff, not_not]

theorem alGet_mem {β : Type} {l : List (String × β)} {k : String} {v : β}
    (h : alGet l k = some v) : (k, v) ∈ l := by
  induction l with
  | nil => simp [alGet] at h
  | cons p rest ih =>
    by_cases hp : p.1 = k
    · rw [show p = (p.1, p.2) from rfl] at h ⊢
      simp [alGet, hp] at h
      simp [hp, ← h]
    · rw [show p = (p.1, p.2) from rfl] at h
      simp [alGet, hp] at h
      exact List.mem_cons_of_mem _ (ih h)

theorem alGet_nodup_unique {β : Type} {l : List (String × β)} {k : String} {v w : β}
    (hnd : (l.map Prod.fst).Nodup) (h : alGet l k = some v) (hm : (k, w) ∈ l) :
    w = v := by
  induction l with
  | nil => simp [alGet] at h
  | cons p rest ih =>
    simp at hnd
    cases hm with
    | head =>
      simp [alGet] at h
      exact h
    | tail _ hm =>
      by_cases hp : p.1 = k
      · exact absurd (show (p.1, w) ∈ rest by rw [hp]; exact hm) (hnd.1 w)
      · rw [show p = (p.1, p.2) from rfl] at h
        simp [alGet, hp] at h
        exact ih hnd.2 h hm

theorem alGet_alSet_self {β : Type} (l : List (String × β)) (k : String) (v : β) :
    alGet (alSet l k v) k = some v := by
  induction l with
  | nil => simp [alSet, alGet]
  | cons p rest ih =>
    by_cases hp : p.1 = k
    · rw [show p = (p.1, p.2) from rfl]
      simp [alSet, alGet, hp]
    · rw [show p = (p.1, p.2) from rfl]
      simp [alSet, alGet, hp, ih]

theorem alGet_alSet_ne {β : Type} (l : List (String × β)) (k d : String) (v : β)
    (h : k ≠ d) : alGet (alSet l k v) d = alGet l d := by
  induction l with
  | nil => simp [alSet, alGet, h]
  | cons p rest ih =>
    by_cases hp : p.1 = k
    · rw [show p = (p.1, p.2) from rfl]
      simp [alSet, alGet, hp, h]
    · rw [show p = (p.1, p.2) from rfl]
      simp [alSet, alGet, hp, ih]

theorem alErase_alSet_of_none {β : Type} (l : List (String × β)) (k : String) (v : β)
    (h : alGet l k = none) : alErase (alSet l k v) k = l := by
  induction l with
  | nil => simp [alSet, alErase]
  | cons p rest ih =>
    rw [show p = (p.1, p.2) from rfl] at h ⊢
    by_cases hp : p.1 = k
    · simp [alGet, hp] at h
    · simp [alGet, hp] at h
      simp [alSet, alErase, hp, ih h]

/-- C9: `get_kook_channel_id` resolves a source channel id by exact-match
lookup in the rule table: it yields a destination iff the id is a key of
the table, the returned destination is the configured one, and (keys being
unique, as they are for a parsed rule dictionary) it is the unique one.
No wildcard or hierarchy takes part: only equality of keys is consulted. -/
theorem get_kook_channel_id_spec (rules : List (String × String)) (c : String) :
    ((getKookChannelId rules c).isSome ↔ c ∈ rules.map Prod.fst)
    ∧ (∀ d, getKookChannelId rules c = some d → (c, d) ∈ rules)
    ∧ ((rules.map Prod.fst).Nodup →
        ∀ d e, getKookChannelId rules c = some d → (c, e) ∈ rules → e = d) := by
  refine ⟨alGet_isSome_iff rules c, fun d h => alGet_mem h, fun hnd d e h hm => ?_⟩
  exact alGet_nodup_unique hnd h hm

theorem get_kook_channel_id_spec_witness :
    (getKookChannelId [("123", "456")] "123").isSome = true ∧
      (getKookChannelId [("123", "456")] "999").isSome = false := by
  constructor
  · exact (get_kook_channel_id_spec [("123", "456")] "123").1.mpr (by decide)
  · have h := (get_kook_channel_id_spec [("123", "456")] "999").1
    by_cases hs : (getKookChannelId [("123", "456")] "999").isSome = true
    · exact absurd (h.mp hs) (by decide)
    · simpa using hs

theorem parse_fold_lookup (d : String) (L : List String) :
    ∀ rules0 : List (String × String),
    alGet (L.foldl
        (fun rules pair =>
          if strHasChar ':' pair then
            alSet rules (strTrim (splitFirstColon (strTrim pair)).1)
              (strTrim (splitFirstColon (strTrim pair)).2)
          else rules)
        rules0) d
      = ((L.filterMap (ruleEntry d)).getLast?).or (alGet rules0 d) := by
  induction L with
  | nil => intro rules0; simp
  | cons pair L ih =>
    intro rules0
    rw [List.foldl_cons]
    by_cases hc : strHasChar ':' pair = true
    · by_cases hd : strTrim (splitFirstColon (strTrim pair)).1 = d
      · have he : ruleEntry d pair
            = some (strTrim (splitFirstColon (strTrim pair)).2) := by
          simp [ruleEntry, hc, hd]
        rw [List.filterMap_cons_some he, if_pos hc, ih]
        cases hfm : L.filterMap (ruleEntry d) with
        | nil =>
          rw [hd, alGet_alSet_self]
          simp
        | cons x xs =>
          rw [List.getLast?_cons_cons]
          obtain ⟨y, hy⟩ : ∃ y, (x :: xs).getLast? = some y :=
            ⟨(x :: xs).getLast (by simp), List.getLast?_eq_getLast _ (by simp)⟩
          rw [hy]
          simp
      · have he : ruleEntry d pair = none := by
          simp [ruleEntry, hc, hd]
        rw [List.filterMap_cons_none he, if_pos hc, ih,
          alGet_alSet_ne _ _ _ _ hd]
    · have he : ruleEntry d pair = none := by
        simp [ruleEntry, hc]
      rw [List.filterMap_cons_none he, if_neg hc, ih]

/-- C10: `_parse_forward_rules` skips comma-separated pairs without a
colon, trims whitespace around both ids (the whole pair and each side of
the split), splits each pair on its first colon only, and resolves source
ids repeated across pairs to the destination of the last such pair: the
lookup of any source id in the parsed table equals the last matching
pair's destination.  A whitespace-only rule string parses to the empty
table. -/
theorem parse_forward_rules_spec (s d : String) :
    (strTrim s = "" → parseForwardRules s = [])
    ∧ (strTrim s ≠ "" →
        alGet (parseForwardRules s) d
          = ((strSplitChar ',' s).filterMap (ruleEntry d)).getLast?) := by
  constructor
  · intro h
    simp [parseForwardRules, h]
  · intro h
    rw [parseForwardRules, if_neg h, parse_fold_lookup]
    simp [alGet]

theorem parse_forward_rules_spec_witness :
    strTrim "  " = "" ∧ parseForwardRules "  " = []
    ∧ alGet (parseForwardRules "a:1, a : 2 ,bad,b:3:4") "a" = some "2"
    ∧ alGet (parseForwardRules "a:1, a : 2 ,bad,b:3:4") "b" = some "3:4" := by
  refine ⟨by decide, (parse_forward_rules_spec "  " "x").1 (by decide), ?_, ?_⟩
  · rw [(parse_forward_rules_spec "a:1, a : 2 ,bad,b:3:4" "a").2 (by decide)]
    decide
  · rw [(parse_forward_rules_spec "a:1, a : 2 ,bad,b:3:4" "b").2 (by decide)]
    decide

/-- C6: `translate_text` returns the input unchanged whenever translation
is disabled or the selected provider is unavailable (`is_enabled` false),
the text is empty or whitespace-only, or the text contains a configured
whitelist substring — regardless of the provider `svc`, so in particular
even when a provider is enabled and reachable. -/
theorem translate_text_unchanged (cfg : TranslatorCfg) (svc : String → String)
    (text : String)
    (h : cfg.isEnabled = false ∨ strTrim text = "" ∨ shouldSkip cfg text = true) :
    translateText cfg svc text = text := by
  rcases h with h | h | h
  · simp [translateText, h]
  · simp [translateText, h]
  · rw [translateText]
    by_cases h1 : (cfg.isEnabled = false ∨ strTrim text = "")
    · rcases h1 with h1 | h1 <;> simp [h1]
    · push_neg at h1
      rw [if_neg (by simp [h1.1, h1.2]), if_pos h]

theorem translate_text_unchanged_witness :
    translateText ⟨true, true, ["SKIP"]⟩ (fun s => s ++ "!") "keep SKIP here"
      = "keep SKIP here" :=
  translate_text_unchanged ⟨true, true, ["SKIP"]⟩ (fun s => s ++ "!")
    "keep SKIP here" (Or.inr (Or.inr (by decide)))

/-- C8: when the native channel send raises, `_send_text_message` falls
back to the direct message-create POST, retried up to `maxRetries = 3`
times, stopping at the first success; consecutive failed attempts are
separated by exactly one 1-second sleep (none after the final attempt);
exhausting all three attempts logs the failure, and the trace is a plain
value for every oracle: the embedded function is total, mirroring the
enclosing `try/except` that keeps the operation from raising to its
caller. -/
theorem send_text_message_fallback (api : Nat → Bool) :
    ((sendTextMessage false api).countP isApiTry ≤ 3)
    ∧ (api 0 = true → sendTextMessage false api =
        [SendEvent.nativeTry, SendEvent.apiTry 0])
    ∧ (api 0 = false → api 1 = true → sendTextMessage false api =
        [SendEvent.nativeTry, SendEvent.apiTry 0, SendEvent.sleepOneSec,
         SendEvent.apiTry 1])
    ∧ (api 0 = false → api 1 = false → api 2 = true → sendTextMessage false api =
        [SendEvent.nativeTry, SendEvent.apiTry 0, SendEvent.sleepOneSec,
         SendEvent.apiTry 1, SendEvent.sleepOneSec, SendEvent.apiTry 2])
    ∧ (api 0 = false → api 1 = false → api 2 = false → sendTextMessage false api =
        [SendEvent.nativeTry, SendEvent.apiTry 0, SendEvent.sleepOneSec,
         SendEvent.apiTry 1, SendEvent.sleepOneSec, SendEvent.apiTry 2,
         SendEvent.logFail]) := by
  cases h0 : api 0 <;> cases h1 : api 1 <;> cases h2 : api 2 <;>
    simp [sendTextMessage, retryFrom, maxRetries, h0, h1, h2, isApiTry,
      List.countP_cons, List.countP_nil]

theorem send_text_message_fallback_witness :
    sendTextMessage false (fun _ => false) =
      [SendEvent.nativeTry, SendEvent.apiTry 0, SendEvent.sleepOneSec,
       SendEvent.apiTry 1, SendEvent.sleepOneSec, SendEvent.apiTry 2,
       SendEvent.logFail] :=
  (send_text_message_fallback (fun _ => false)).2.2.2.2 rfl rfl rfl

/-- C7 (amended): once the native `channel.send(file=...)` attempt has
failed and the API path runs, a file whose extension is in the
known-unsupported set or whose size exceeds the 20 MiB ceiling produces
exactly a text-only notice after the failed native attempt, and the
asset-upload POST is never made for it.  (The native attempt itself
precedes both checks; see `send_file_oversize_native_cx`.) -/
theorem send_file_rejects_on_api_path (msgPre fname ext : String) (size : Nat)
    (upload : Option String)
    (h : ext ∈ unsupportedFormats ∨ size > kookSizeLimit) :
    (∃ m, sendFileToKook msgPre false fname ext size upload =
        [FileEvent.nativeFileSend, FileEvent.textNotice m])
    ∧ FileEvent.assetUpload ∉ sendFileToKook msgPre false fname ext size upload := by
  by_cases he : ext ∈ unsupportedFormats
  · refine ⟨⟨msgPre ++ " 不支持的文件格式: " ++ fname, ?_⟩, ?_⟩
    · simp [sendFileToKook, he]
    · simp [sendFileToKook, he]
  · rcases h with h | h
    · exact absurd h he
    · refine ⟨⟨msgPre ++ " 文件过大(>20MB): " ++ fname, ?_⟩, ?_⟩
      · simp [sendFileToKook, he, h]
      · simp [sendFileToKook, he, h]

theorem send_file_rejects_on_api_path_witness :
    (∃ m, sendFileToKook "[Discord]" false "icon.svg" ".svg" 5 none =
        [FileEvent.nativeFileSend, FileEvent.textNotice m])
    ∧ FileEvent.assetUpload ∉ sendFileToKook "[Discord]" false "icon.svg" ".svg" 5 none :=
  send_file_rejects_on_api_path "[Discord]" "icon.svg" ".svg" 5 none
    (Or.inl (by decide))

/-- C7 (counterexample): a 21 MiB attachment for which the native
channel send succeeds.  The code attempts the native binary send before
any extension or size check, so the trace is exactly the (successful)
native binary upload: no text-only notice is produced, contradicting the
claim that an attachment over 20 MiB always triggers the text-only
fallback and never an upload attempt. -/
theorem send_file_oversize_native_cx :
    sendFileToKook "[Discord]" true "video.mp4" ".mp4" (21 * 1024 * 1024) none =
      [FileEvent.nativeFileSend]
    ∧ 21 * 1024 * 1024 > kookSizeLimit := by
  exact ⟨rfl, by decide⟩

theorem strJoin_cons (a : String) (l : List String) :
    String.join (a :: l) = a ++ String.join l := by
  have haux : ∀ (l : List String) (acc : String),
      l.foldl (fun r s => r ++ s) acc = acc ++ l.foldl (fun r s => r ++ s) "" := by
    intro l
    induction l with
    | nil => intro acc; simp
    | cons x l ih =>
      intro acc
      rw [List.foldl_cons, List.foldl_cons, ih ("" ++ x), ih (acc ++ x),
        String.empty_append, String.append_assoc]
  simp only [String.join, List.foldl_cons, String.empty_append]
  exact haux l a

theorem strJoin_append (l1 l2 : List String) :
    String.join (l1 ++ l2) = String.join l1 ++ String.join l2 := by
  induction l1 with
  | nil => simp [String.join]
  | cons a l ih =>
    rw [List.cons_append, strJoin_cons, strJoin_cons, ih, String.append_assoc]

theorem foldl_append_str {α : Type} (g : α → String) (l : List α) :
    ∀ acc : String, l.foldl (fun r x => r ++ g x) acc
      = acc ++ String.join (l.map g) := by
  induction l with
  | nil => intro acc; simp [String.join]
  | cons x l ih =>
    intro acc
    rw [List.foldl_cons, ih, List.map_cons, strJoin_cons, String.append_assoc]

theorem splitChar_ne_nil (sep : Char) (cs : List Char) : splitChar sep cs ≠ [] := by
  induction cs with
  | nil => simp [splitChar]
  | cons c cs ih =>
    by_cases h : c = sep
    · simp [splitChar, h]
    · cases hs : splitChar sep cs with
      | nil => exact absurd hs ih
      | cons l ls => simp [splitChar, h, hs]

theorem splitChar_reassemble (sep : Char) (cs : List Char) :
    ((splitChar sep cs).map (fun l => l ++ [sep])).flatten = cs ++ [sep] := by
  induction cs with
  | nil => simp [splitChar]
  | cons c cs ih =>
    by_cases h : c = sep
    · subst h
      simp [splitChar, ih]
    · cases hs : splitChar sep cs with
      | nil => exact absurd hs (splitChar_ne_nil sep cs)
      | cons l ls =>
        rw [hs] at ih
        simp only [List.map_cons, List.flatten_cons] at ih
        simp only [splitChar, if_neg h, hs, List.map_cons, List.flatten_cons]
        simpa [List.append_assoc] using congrArg (fun t => c :: t) ih

theorem splitNl_reassemble (s : String) :
    String.join ((splitNl s).map (fun l => l ++ "\n")) = s ++ "\n" := by
  have hdata : ∀ l : List String,
      (String.join l).data = (l.map String.data).flatten := by
    intro l
    induction l with
    | nil => rfl
    | cons a l ih =>
      rw [strJoin_cons, String.data_append, ih, List.map_cons, List.flatten_cons]
  apply String.ext
  rw [hdata, String.data_append]
  show _ = s.data ++ ['\n']
  rw [splitNl, strSplitChar, List.map_map, List.map_map]
  have hmap : List.map ((String.data ∘ fun l => l ++ "\n") ∘ fun cs => String.mk cs)
        (splitChar '\n' s.data)
      = (splitChar '\n' s.data).map (fun cs => cs ++ ['\n']) := by
    apply List.map_congr_left
    intro cs _
    show (String.mk cs ++ "\n").data = cs ++ ['\n']
    rw [String.data_append]
  rw [hmap, splitChar_reassemble]

theorem splitAux_contents (ls : List String) :
    ∀ (inCode : Bool) (cur : String),
    String.join ((splitAux ls inCode cur).map (fun p => p.2))
      = cur ++ String.join (ls.map (fun l => l ++ "\n")) := by
  induction ls with
  | nil =>
    intro inCode cur
    by_cases h : cur = ""
    · simp [splitAux, h, String.join]
    · simp [splitAux, h, String.join, strJoin_cons]
  | cons l ls ih =>
    intro inCode cur
    by_cases hf : isFence l = true
    · by_cases h : cur = ""
      · simp [splitAux, hf, h, ih, strJoin_cons, strJoin_append,
          String.append_assoc]
      · simp [splitAux, hf, h, ih, strJoin_cons, strJoin_append,
          String.append_assoc]
    · simp [splitAux, hf, ih, strJoin_cons, String.append_assoc]

theorem translate_fold_eq (cfg : TranslatorCfg) (svc : String → String)
    (parts : List (Bool × String)) (acc : String) :
    parts.foldl
        (fun result part =>
          if part.1 == false && strTrim part.2 != "" then
            if shouldSkip cfg part.2 then result ++ part.2
            else result ++ svc part.2
          else result ++ part.2)
        acc
      = acc ++ String.join (parts.map (translatePart cfg svc)) := by
  have hbody : (fun (result : String) (part : Bool × String) =>
        if part.1 == false && strTrim part.2 != "" then
          if shouldSkip cfg part.2 then result ++ part.2
          else result ++ svc part.2
        else result ++ part.2)
      = fun result part => result ++ translatePart cfg svc part := by
    funext r p
    simp only [translatePart]
    by_cases h1 : (p.1 == false && strTrim p.2 != "") = true
    · simp only [if_pos h1]
      by_cases h2 : shouldSkip cfg p.2 = true
      · simp only [if_pos h2]
      · simp only [if_neg h2]
    · simp only [if_neg h1]
  rw [hbody, foldl_append_str (translatePart cfg svc)]

/-- C5 (amended): on a text containing a fenced code block (and not caught
by the disabled/blank/whitelist early returns), `translate_text` is the
concatenation, in original order, of the per-part outputs of the splitter:
code parts (and blank or whitelisted text parts) pass through verbatim and
only non-code parts are given to the provider.  Since the splitter
re-terminates every line with a newline, the reassembly equals the input
with one trailing newline appended — in particular an identity provider
returns `text ++ "\n"`, not `text`. -/
theorem translate_text_code_blocks (cfg : TranslatorCfg) (svc : String → String)
    (text : String) (hen : cfg.isEnabled = true) (hblank : strTrim text ≠ "")
    (hskip : shouldSkip cfg text = false) (hcode : containsCodeBlock text = true) :
    translateText cfg svc text
      = String.join ((splitTextAndCodeBlocks text).map (translatePart cfg svc))
    ∧ translateText cfg (fun s => s) text = text ++ "\n" := by
  have hmain : ∀ f : String → String, translateText cfg f text
      = String.join ((splitTextAndCodeBlocks text).map (translatePart cfg f)) := by
    intro f
    rw [translateText, if_neg (by simp [hen, hblank]), if_neg (by simp [hskip]),
      if_neg (by simp [hcode]), translate_fold_eq, String.empty_append]
  refine ⟨hmain svc, ?_⟩
  rw [hmain (fun s => s)]
  have hid : (splitTextAndCodeBlocks text).map (translatePart cfg (fun s => s))
      = (splitTextAndCodeBlocks text).map (fun p => p.2) := by
    apply List.map_congr_left
    intro p _
    simp only [translatePart]
    split_ifs <;> rfl
  rw [hid, splitTextAndCodeBlocks, splitAux_contents, String.empty_append,
    splitNl_reassemble]

theorem translate_text_code_blocks_witness :
    translateText ⟨true, true, []⟩ (fun s => s) "a\n```\nb\n```"
      = "a\n```\nb\n```" ++ "\n" :=
  (translate_text_code_blocks ⟨true, true, []⟩ (fun s => s) "a\n```\nb\n```"
    rfl (by decide) rfl (by decide)).2

/-- C5 (counterexample): with an enabled provider that is the identity,
translating a text with a fenced code block does not return the input: the
splitter appends a newline to every line, so the output carries one extra
trailing newline. -/
theorem translate_text_identity_cx :
    translateText ⟨true, true, []⟩ (fun s => s) "a\n```\nb\n```"
      ≠ "a\n```\nb\n```" := by
  decide

/-- C4 (amended): when the exact lookup misses, fuzzy name resolution
accepts the best match iff its similarity score clears the path's
threshold, but the two paths test differently: `get_appid_by_name` (the
list/remove-by-name path) accepts score ≥ 70, so exactly 70 is accepted
and 69 is rejected, while `add_game` (the add-by-name path) accepts only
score > 80, so exactly 80 is rejected and 81 is accepted. -/
theorem fuzzy_threshold_spec (dict : List (String × Nat)) (gameName mname : String)
    (score : ℚ) (i : Nat)
    (hne : dict.isEmpty = false) (hfound : alGet dict mname = some i)
    (hmiss : alGet dict gameName = none) :
    (getAppidByName dict (some (mname, score))
        = if score ≥ 70 then some (i, mname) else none)
    ∧ (addGameResolve dict gameName (some (mname, score))
        = if score > 80 then some (mname, i) else none) := by
  constructor
  · simp only [getAppidByName, hne]
    by_cases hs : score ≥ 70
    · simp [hs, hfound]
    · simp [hs]
  · simp only [addGameResolve, hmiss]
    by_cases hs : score > 80
    · simp [hs, hfound]
    · simp [hs]

theorem fuzzy_threshold_spec_witness :
    getAppidByName [("Portal", 400)] (some ("Portal", (70 : ℚ)))
        = some (400, "Portal")
    ∧ addGameResolve [("Portal", 400)] "Portl" (some ("Portal", (81 : ℚ)))
        = some ("Portal", 400) := by
  constructor
  · rw [(fuzzy_threshold_spec [("Portal", 400)] "Portl" "Portal" 70 400
      (by decide) (by decide) (by decide)).1]
    decide
  · rw [(fuzzy_threshold_spec [("Portal", 400)] "Portl" "Portal" 81 400
      (by decide) (by decide) (by decide)).2]
    decide

/-- C4 (counterexample): the add-by-name path of `add_game` compares with
a strict `> 80`, so a best match scoring exactly at the 80 threshold is
rejected — contradicting the claim that a match scoring exactly at the
path's threshold is accepted.  (The 70 threshold of `get_appid_by_name`
is inclusive, as the second conjunct shows.) -/
theorem add_game_threshold_cx :
    addGameResolve [("Portal", 400)] "Portl" (some ("Portal", (80 : ℚ))) = none
    ∧ getAppidByName [("Portal", 400)] (some ("Portal", (70 : ℚ)))
        = some (400, "Portal") := by
  decide

theorem monitor_inner_fold (fetch : String → Option PriceInfo) (key : String)
    (games : List (String × MonitorInfo)) :
    ∀ (accL : List (String × MonitorInfo)) (accC : List PriceChange),
    games.foldl
        (fun gacc ag =>
          let r := checkGame fetch key ag.1 ag.2
          (gacc.1 ++ [(ag.1, r.1)],
           match r.2 with
           | none => gacc.2
           | some c => gacc.2 ++ [c]))
        (accL, accC)
      = (accL ++ games.map (fun ag => (ag.1, (checkGame fetch key ag.1 ag.2).1)),
         accC ++ games.filterMap (fun ag => (checkGame fetch key ag.1 ag.2).2)) := by
  induction games with
  | nil => intro accL accC; simp
  | cons ag games ih =>
    intro accL accC
    rw [List.foldl_cons]
    cases hr : (checkGame fetch key ag.1 ag.2).2 with
    | none =>
      have hfm : List.filterMap (fun x => (checkGame fetch key x.1 x.2).2) (ag :: games)
          = List.filterMap (fun x => (checkGame fetch key x.1 x.2).2) games :=
        List.filterMap_cons_none hr
      rw [hfm]
      simp only [hr, List.map_cons]
      rw [ih]
      simp [List.append_assoc]
    | some c =>
      have hfm : List.filterMap (fun x => (checkGame fetch key x.1 x.2).2) (ag :: games)
          = c :: List.filterMap (fun x => (checkGame fetch key x.1 x.2).2) games :=
        List.filterMap_cons_some hr
      rw [hfm]
      simp only [hr, List.map_cons]
      rw [ih]
      simp [List.append_assoc]

theorem monitor_outer_fold (fetch : String → Option PriceInfo)
    (store : MonitorStore) :
    ∀ (accS : MonitorStore) (accC : List PriceChange),
    store.foldl
        (fun acc kg =>
          let inner :=
            kg.2.foldl
              (fun gacc ag =>
                let r := checkGame fetch kg.1 ag.1 ag.2
                (gacc.1 ++ [(ag.1, r.1)],
                 match r.2 with
                 | none => gacc.2
                 | some c => gacc.2 ++ [c]))
              (([] : List (String × MonitorInfo)), acc.2)
          (acc.1 ++ [(kg.1, inner.1)], inner.2))
        (accS, accC)
      = (accS ++ passStore fetch store, accC ++ passChanges fetch store) := by
  induction store with
  | nil => intro accS accC; simp [passStore, passChanges]
  | cons kg store ih =>
    intro accS accC
    rw [List.foldl_cons]
    show store.foldl _
        ((accS, accC).1 ++ [(kg.1, _)], _) = _
    rw [monitor_inner_fold fetch kg.1 kg.2 [] accC]
    simp only [List.nil_append]
    rw [ih]
    simp [passStore, passChanges, List.append_assoc]

/-- C1: one pass of `run_monitor_prices` over the whole store treats every
entry independently (`passStore`/`passChanges`), appends exactly one
change record per favorable change in store order, rewrites the store file
exactly once iff at least one change occurred, and per entry: a change is
recorded iff `current_price < last_price` or
`current_discount > last_discount`; on such a favorable change the entry's
`last_price` and `last_discount` are updated in memory and the record
carries the old and new values; a failed price fetch leaves the entry
untouched and produces no record, without affecting any other entry or
aborting the pass. -/
theorem run_monitor_prices_spec (fetch : String → Option PriceInfo)
    (store : MonitorStore) :
    ((runMonitorPrices fetch store).1 = passStore fetch store)
    ∧ ((runMonitorPrices fetch store).2.1 = passChanges fetch store)
    ∧ ((runMonitorPrices fetch store).2.2
        = if passChanges fetch store = [] then 0 else 1)
    ∧ (∀ key appid g, fetch appid = none → checkGame fetch key appid g = (g, none))
    ∧ (∀ key appid g p, fetch appid = some p →
        (((checkGame fetch key appid g).2 ≠ none) ↔
          (p.currentPrice < g.lastPrice ∨ p.discount > g.lastDiscount)))
    ∧ (∀ key appid g p, fetch appid = some p →
        (p.currentPrice < g.lastPrice ∨ p.discount > g.lastDiscount) →
        checkGame fetch key appid g =
          ({ g with lastPrice := p.currentPrice, lastDiscount := p.discount },
           some { key := key, gameName := g.name, appid := appid,
                  oldPrice := g.lastPrice, newPrice := p.currentPrice,
                  oldDiscount := g.lastDiscount, newDiscount := p.discount,
                  currency := p.currency }))
    ∧ (∀ key appid g p, fetch appid = some p →
        ¬(p.currentPrice < g.lastPrice ∨ p.discount > g.lastDiscount) →
        checkGame fetch key appid g = (g, none)) := by
  have hpass : store.isEmpty = false →
      runMonitorPrices fetch store
        = (passStore fetch store, passChanges fetch store,
           if (passChanges fetch store).isEmpty then 0 else 1) := by
    intro hne
    rw [runMonitorPrices, if_neg (by simp [hne])]
    rw [monitor_outer_fold fetch store [] []]
    simp
  have hmain : runMonitorPrices fetch store
      = (passStore fetch store, passChanges fetch store,
         if (passChanges fetch store).isEmpty then 0 else 1) := by
    cases hne : store.isEmpty with
    | true =>
      have hst : store = [] := by simpa using hne
      subst hst
      simp [runMonitorPrices, passStore, passChanges]
    | false => exact hpass hne
  refine ⟨by rw [hmain], by rw [hmain], ?_, ?_, ?_, ?_, ?_⟩
  · rw [hmain]
    simp [List.isEmpty_iff]
  · intro key appid g hf
    simp [checkGame, hf]
  · intro key appid g p hf
    rw [checkGame]
    simp only [hf]
    by_cases hfav : favorable p g = true
    · simp only [if_pos hfav]
      have : p.currentPrice < g.lastPrice ∨ p.discount > g.lastDiscount := by
        simpa [favorable] using hfav
      simp [this]
    · simp only [if_neg hfav]
      have : ¬(p.currentPrice < g.lastPrice ∨ p.discount > g.lastDiscount) := by
        simpa [favorable] using hfav
      simp [this]
  · intro key appid g p hf hfav
    rw [checkGame]
    simp only [hf]
    rw [if_pos (by simpa [favorable] using hfav)]
  · intro key appid g p hf hfav
    rw [checkGame]
    simp only [hf]
    rw [if_neg (by simpa [favorable] using hfav)]

theorem run_monitor_prices_spec_witness :
    ((runMonitorPrices
        (fun a => if a = "10" then some ⟨false, 5, 10, 50, "CNY"⟩ else none)
        [("u_c", [("10", ⟨10, "G", 10, 0, "CNY", 0⟩),
                  ("20", ⟨20, "H", 7, 0, "CNY", 0⟩)])]).2.1).length = 1
    ∧ (runMonitorPrices
        (fun a => if a = "10" then some ⟨false, 5, 10, 50, "CNY"⟩ else none)
        [("u_c", [("10", ⟨10, "G", 10, 0, "CNY", 0⟩),
                  ("20", ⟨20, "H", 7, 0, "CNY", 0⟩)])]).2.2 = 1 := by
  have h := run_monitor_prices_spec
    (fun a => if a = "10" then some ⟨false, 5, 10, 50, "CNY"⟩ else none)
    [("u_c", [("10", ⟨10, "G", 10, 0, "CNY", 0⟩),
              ("20", ⟨20, "H", 7, 0, "CNY", 0⟩)])]
  constructor
  · rw [h.2.1]
    decide
  · rw [h.2.2.1]
    decide

/-- C2 (amended): for a subscriber key with no existing entry in the store
and a resolvable, priceable item name, `add_monitor` succeeds and
`list_monitors` then holds exactly one entry, whose `appid` is the id the
name resolved to; a subsequent `remove_monitor` with the same name
succeeds, after which `list_monitors` is empty, the key is absent from the
store, and the store equals its initial value.  (When the key already
tracks other items the final list keeps those items and the key stays
present — see `add_remove_roundtrip_cx`.) -/
theorem add_remove_roundtrip
    (dict : List (String × Nat)) (matcher : String → Option (String × ℚ))
    (price : Nat → Option PriceInfo)
    (userMatcher : String → List String → Option (String × ℚ))
    (reverseDict : Nat → Option String) (now : ℚ) (store : MonitorStore)
    (userId channelId gameName : String) (appid : Nat) (mname : String)
    (p : PriceInfo)
    (hres : getAppidByName dict (matcher gameName) = some (appid, mname))
    (hprice : price appid = some p)
    (hfresh : alGet store (userId ++ "_" ++ channelId) = none)
    (hname : gameName ≠ "") :
    ((addMonitor dict matcher price now store userId channelId gameName).1.1 = true)
    ∧ ((listMonitors
          (addMonitor dict matcher price now store userId channelId gameName).2.1
          userId channelId).map (fun i => i.appid) = [appid])
    ∧ ((removeMonitor dict matcher userMatcher reverseDict
          (addMonitor dict matcher price now store userId channelId gameName).2.1
          userId channelId gameName).1.1 = true)
    ∧ (listMonitors
          (removeMonitor dict matcher userMatcher reverseDict
            (addMonitor dict matcher price now store userId channelId gameName).2.1
            userId channelId gameName).2.1 userId channelId = [])
    ∧ (alGet (removeMonitor dict matcher userMatcher reverseDict
          (addMonitor dict matcher price now store userId channelId gameName).2.1
          userId channelId gameName).2.1 (userId ++ "_" ++ channelId) = none)
    ∧ ((removeMonitor dict matcher userMatcher reverseDict
          (addMonitor dict matcher price now store userId channelId gameName).2.1
          userId channelId gameName).2.1 = store) := by
  have hadd : addMonitor dict matcher price now store userId channelId gameName
      = ((true, "已添加游戏到监控列表",
          some ⟨appid, mname, p.currentPrice, p.discount, p.currency, now⟩),
         alSet store (userId ++ "_" ++ channelId)
           [(toString appid,
             ⟨appid, mname, p.currentPrice, p.discount, p.currency, now⟩)], 1) := by
    simp [addMonitor, hres, hprice, hfresh, alGet]
  have hrem : removeMonitor dict matcher userMatcher reverseDict
        (alSet store (userId ++ "_" ++ channelId)
          [(toString appid,
            ⟨appid, mname, p.currentPrice, p.discount, p.currency, now⟩)])
        userId channelId gameName
      = ((true, "已移除游戏监控"), store, 1) := by
    simp [removeMonitor, alGet_alSet_self, hname, hres, alGet, alErase,
      alErase_alSet_of_none _ _ _ hfresh]
  rw [hadd]
  refine ⟨rfl, ?_, ?_, ?_, ?_, ?_⟩
  · simp [listMonitors, alGet_alSet_self]
  · rw [hrem]
  · rw [hrem]
    simp [listMonitors, hfresh]
  · rw [hrem]
    exact hfresh
  · rw [hrem]

/-- C2 (counterexample): when the key already tracks another item, the
round trip of the claim fails: after `add_monitor` of a fresh item "Beta"
and a `remove_monitor` of it, `list_monitors` still holds the other item
and the key is still present in the store — it is not empty and the key is
not absent as the claim states. -/
theorem add_remove_roundtrip_cx :
    listMonitors
        (removeMonitor [("Beta", 22)]
          (fun n => if n = "Beta" then some ("Beta", (100 : ℚ)) else none)
          (fun _ _ => none) (fun _ => none)
          (addMonitor [("Beta", 22)]
            (fun n => if n = "Beta" then some ("Beta", (100 : ℚ)) else none)
            (fun _ => some ⟨false, 5, 10, 0, "CNY"⟩) 0
            [("u_c", [("11", ⟨11, "Alpha", 3, 0, "CNY", 0⟩)])]
            "u" "c" "Beta").2.1
          "u" "c" "Beta").2.1
        "u" "c" ≠ [] := by
  decide

theorem add_remove_roundtrip_witness :
    (removeMonitor [("Beta", 22)]
        (fun n => if n = "Beta" then some ("Beta", (100 : ℚ)) else none)
        (fun _ _ => none) (fun _ => none)
        (addMonitor [("Beta", 22)]
          (fun n => if n = "Beta" then some ("Beta", (100 : ℚ)) else none)
          (fun _ => some ⟨false, 5, 10, 0, "CNY"⟩) 0 [] "u" "c" "Beta").2.1
        "u" "c" "Beta").2.1 = [] := by
  have h := add_remove_roundtrip [("Beta", 22)]
    (fun n => if n = "Beta" then some ("Beta", (100 : ℚ)) else none)
    (fun _ => some ⟨false, 5, 10, 0, "CNY"⟩)
    (fun _ _ => none) (fun _ => none) 0 [] "u" "c" "Beta" 22 "Beta"
    ⟨false, 5, 10, 0, "CNY"⟩ (by decide) rfl rfl (by decide)
  exact h.2.2.2.2.2

/-- C3: a `remove_monitor` call for an item that is not tracked under the
given subscriber key fails without mutating anything: whenever the call
returns ok = false the in-memory store is returned unchanged, no store-file
write happens (so the persisted file is byte-identical), and the message is
a nonempty explanation; moreover the call does return ok = false both when
the key is absent from the store and when the name resolves to an appid
that is not in the key's entry. -/
theorem remove_monitor_not_present
    (dict : List (String × Nat)) (matcher : String → Option (String × ℚ))
    (userMatcher : String → List String → Option (String × ℚ))
    (reverseDict : Nat → Option String) (store : MonitorStore)
    (userId channelId gameName : String) (hname : gameName ≠ "") :
    (((removeMonitor dict matcher userMatcher reverseDict store
          userId channelId gameName).1.1 = false) →
        ((removeMonitor dict matcher userMatcher reverseDict store
            userId channelId gameName).2.1 = store
          ∧ (removeMonitor dict matcher userMatcher reverseDict store
              userId channelId gameName).2.2 = 0
          ∧ (removeMonitor dict matcher userMatcher reverseDict store
              userId channelId gameName).1.2 ≠ ""))
    ∧ (alGet store (userId ++ "_" ++ channelId) = none →
        (removeMonitor dict matcher userMatcher reverseDict store
          userId channelId gameName).1.1 = false)
    ∧ (∀ games appid mname,
        alGet store (userId ++ "_" ++ channelId) = some games →
        getAppidByName dict (matcher gameName) = some (appid, mname) →
        alGet games (toString appid) = none →
        ((removeMonitor dict matcher userMatcher reverseDict store
            userId channelId gameName).1.1 = false
          ∧ (removeMonitor dict matcher userMatcher reverseDict store
              userId channelId gameName).2.1 = store
          ∧ (removeMonitor dict matcher userMatcher reverseDict store
              userId channelId gameName).2.2 = 0)) := by
  refine ⟨?_, ?_, ?_⟩
  · cases hk : alGet store (userId ++ "_" ++ channelId) with
    | none =>
      intro _
      simp [removeMonitor, hk]
    | some games =>
      simp only [removeMonitor, hk, if_neg hname]
      split
      · intro _
        exact ⟨rfl, rfl, (by decide : ("未找到匹配的游戏" : String) ≠ "")⟩
      · split
        · intro _
          exact ⟨rfl, rfl, (by decide : ("游戏不在监控列表中" : String) ≠ "")⟩
        · intro h
          simp at h
  · intro hk
    simp [removeMonitor, hk]
  · intro games appid mname hg hga hnotin
    simp [removeMonitor, hg, hname, hga, hnotin]

theorem remove_monitor_not_present_witness :
    (removeMonitor [] (fun _ => none) (fun _ _ => none) (fun _ => none) []
        "u" "c" "G").1.1 = false
    ∧ (removeMonitor [] (fun _ => none) (fun _ _ => none) (fun _ => none) []
        "u" "c" "G").2.1 = []
    ∧ (removeMonitor [] (fun _ => none) (fun _ _ => none) (fun _ => none) []
        "u" "c" "G").2.2 = 0 := by
  have h := remove_monitor_not_present [] (fun _ => none) (fun _ _ => none)
    (fun _ => none) [] "u" "c" "G" (by decide)
  have hf : (removeMonitor [] (fun _ => none) (fun _ _ => none) (fun _ => none) []
      "u" "c" "G").1.1 = false := h.2.1 rfl
  exact ⟨hf, (h.1 hf).1, (h.1 hf).2.1⟩

end DiscordKook
